import Mathlib

/-!
Verification of the job-board scraping and salary-extraction pipeline
(`scraper_service.py` + `analysis_engine.py`) of the interview-analysis-demo
repository, as a shallow embedding.  External effects (HTTP responses,
exceptions raised by `requests.get`, the LLM call, the clock) are passed in
as explicit oracle arguments; `time.sleep` durations and the number of HTTP
requests issued are recorded in a trace so that the retry/backoff policy can
be stated.  Python exceptions are modelled with `Except PyExn`; Python
`None`-or-string results with `Option String`.
-/

namespace InterviewDemo

/-- An opaque model of a Python exception object (only its message matters). -/
structure PyExn where
  msg : String
deriving DecidableEq

/- Python string helpers, modelled on code points (Lean `Char` lists), which
matches CPython semantics for `in`, slicing and `len` on the ASCII data this
pipeline handles. -/

/-- Whether `hay` begins with `needle`. -/
def startsWithL : List Char → List Char → Bool
  | [], _ => true
  | _ :: _, [] => false
  | c :: cs, d :: ds => c == d && startsWithL cs ds

/-- Whether `needle` occurs contiguously in `hay` (Python `needle in hay`). -/
def containsL (needle : List Char) : List Char → Bool
  | [] => needle.isEmpty
  | d :: ds => startsWithL needle (d :: ds) || containsL needle ds

/-- Python `needle in hay` on strings. -/
def pyIn (needle hay : String) : Bool := containsL needle.toList hay.toList

/-- Python `s.lower()` (ASCII; the pipeline only lowercases ASCII data). -/
def pyLower (s : String) : String := String.mk (s.toList.map Char.toLower)

/-- Python `s[:n]` on strings (slice of the first `n` code points). -/
def pySlice (s : String) (n : Nat) : String := String.mk (s.toList.take n)

/-- Python `len(s)` (number of code points). -/
def pyLen (s : String) : Nat := s.toList.length

section FetchPageContent

/-- Outcome of one `requests.get` call inside `fetch_page_content`:
either the call raises, or it returns a response with a status code and
a body (`response.text`). -/
inductive AttemptOutcome
  | exn (e : PyExn)
  | resp (status : Nat) (body : String)
deriving DecidableEq

/-- Observable behaviour of one call to `fetch_page_content`:
how many HTTP requests were issued, the successive `time.sleep` durations
(in seconds), and the returned value (`none` models Python `None`). -/
structure FetchTrace where
  requests : Nat
  sleeps : List Nat
  result : Option String
deriving DecidableEq

/-- The `for attempt in range(retry_count)` loop of
`ScraperService.fetch_page_content` (scraper_service.py lines 31-60).
`beh attempt` is the oracle giving the outcome of the HTTP request made on
that loop iteration.  The list argument is the remaining iteration indices,
`sleeps` accumulates backoff waits in reverse, `hits` counts requests so far.
Falling off the end of the loop returns `None` (line 60). -/
def fetchLoop (beh : Nat → AttemptOutcome) (retry_count : Nat) :
    List Nat → List Nat → Nat → FetchTrace
  | [], sleeps, hits => ⟨hits, sleeps.reverse, none⟩
  | attempt :: rest, sleeps, hits =>
    match beh attempt with
    | .resp status body =>
      if status = 200 then
        -- line 36: `return response.text[:20000]`
        ⟨hits + 1, sleeps.reverse, some (pySlice body 20000)⟩
      else if status = 429 then
        -- lines 37-46: exponential backoff `(2 ** attempt) * 2`
        if attempt < retry_count - 1 then
          fetchLoop beh retry_count rest ((2 ^ attempt * 2) :: sleeps) (hits + 1)
        else ⟨hits + 1, sleeps.reverse, none⟩
      else
        -- lines 47-49: any other status fails immediately
        ⟨hits + 1, sleeps.reverse, none⟩
    | .exn _ =>
      -- lines 50-58: transport exception, backoff `(2 ** attempt) * 1`
      if attempt < retry_count - 1 then
        fetchLoop beh retry_count rest ((2 ^ attempt * 1) :: sleeps) (hits + 1)
      else ⟨hits + 1, sleeps.reverse, none⟩

/-- Model of `ScraperService.fetch_page_content(url, retry_count)`.  The `url` and the
header construction (lines 16-29) only affect which HTTP endpoint is hit, so
the request outcomes are abstracted into the oracle `beh`.  `retry_count` is
taken as an `Int` because Python `range` accepts any integer (non-positive
values give an empty loop). -/
def fetch_page_content (beh : Nat → AttemptOutcome) (retry_count : Int) : FetchTrace :=
  fetchLoop beh retry_count.toNat (List.range retry_count.toNat) [] 0

end FetchPageContent

section LinkDiscovery

/-- One parsed candidate link: display text and URL
(as produced by `re.findall(r'\[([^\]]+)\]\((http[^\)]+)\)', ...)`). -/
structure Candidate where
  text : String
  url : String
deriving DecidableEq

/-- Try to match the regex `\[([^\]]+)\]\((http[^\)]+)\)` at the head of the
character list.  On success, return the display text, the URL (including the
literal `http`), and the remaining characters after the match.  Both character
classes exclude their closing delimiter, so the greedy match is the unique
one. -/
def matchLink (cs : List Char) : Option (String × String × List Char) :=
  match cs with
  | '[' :: cs1 =>
    let t := cs1.takeWhile (fun c => c ≠ ']')
    if t.isEmpty then none
    else
      match cs1.dropWhile (fun c => c ≠ ']') with
      | ']' :: '(' :: 'h' :: 't' :: 't' :: 'p' :: cs2 =>
        let u := cs2.takeWhile (fun c => c ≠ ')')
        if u.isEmpty then none
        else
          match cs2.dropWhile (fun c => c ≠ ')') with
          | ')' :: cs3 =>
            some (String.mk t, String.mk ( 'h' :: 't' :: 't' :: 'p' :: u), cs3)
          | _ => none
      | _ => none
  | _ => none

/-- Left-to-right, non-overlapping scan for the link regex, as
`re.findall` performs it: try to match at each position, and resume after the
end of each match.  `fuel` bounds the number of scan steps; every step
consumes at least one character, so `fuel = length` always suffices. -/
def findLinksAux : Nat → List Char → List (String × String)
  | 0, _ => []
  | _ + 1, [] => []
  | fuel + 1, c :: cs =>
    match matchLink (c :: cs) with
    | some (t, u, rest) => (t, u) :: findLinksAux fuel rest
    | none => findLinksAux fuel cs

/-- All `[text](http...)` links of a page, in order of occurrence
(scraper_service.py lines 130-131). -/
def findLinks (s : String) : List (String × String) :=
  findLinksAux s.toList.length s.toList

/-- The skip test `len(text) < 4 or "mailto" in href or "linkedin" in href`
(scraper_service.py line 136): links skipped outright. -/
def badLink (text href : String) : Bool :=
  decide (pyLen text < 4) || pyIn "mailto" href || pyIn "linkedin" href

/-- The plausible-job-link test (scraper_service.py lines 139-140): the URL
contains a known job-board domain, or the display text contains "apply". -/
def looksLikeJobLink (text href : String) : Bool :=
  pyIn "greenhouse.io" (pyLower href) || pyIn "lever.co" (pyLower href) ||
    pyIn "workday.com" (pyLower href) || pyIn "apply" (pyLower text)

/-- The candidate filter of `discover_job_links` (scraper_service.py lines
133-143): drop links with short display text or `mailto`/`linkedin` URLs,
keep only plausible job links (known job-board domain or "apply" in the
text), and deduplicate URLs keeping the first occurrence (`seen` is the set
of URLs already taken, as a list). -/
def filterCandidates : List (String × String) → List String → List Candidate
  | [], _ => []
  | (text, href) :: rest, seen =>
    if badLink text href then
      filterCandidates rest seen
    else if looksLikeJobLink text href then
      if seen.contains href then filterCandidates rest seen
      else ⟨text, href⟩ :: filterCandidates rest (href :: seen)
    else filterCandidates rest seen

/-- The title-match test of `discover_job_links` (scraper_service.py lines
163-167): the lower-cased title contains the lower-cased keyword, or the
keyword is exactly `engineer` and the title contains `engineering`, or the
keyword is exactly `analyst` and the title contains `analysis`. -/
def matchesKeyword (role_keyword title : String) : Bool :=
  let keyword_lower := pyLower role_keyword
  let title_lower := pyLower title
  pyIn keyword_lower title_lower ||
    (keyword_lower == "engineer" && pyIn "engineering" title_lower) ||
    (keyword_lower == "analyst" && pyIn "analysis" title_lower)

/-- The per-candidate loop of `discover_job_links` (scraper_service.py lines
152-191).  `titleOf` is the oracle for `_extract_job_title_from_page`: it may
raise (`.error`), fail to produce a title (`.ok none`), or return a title.
`matched` accumulates matched URLs in reverse; `calls` records, in reverse,
the URLs for which a title-extraction call was issued.  The loop stops early
once 20 matches are accumulated (lines 156, 172-174).  A raised exception
propagates (to the surrounding `try`). -/
def discoverLoop (titleOf : String → Except PyExn (Option String)) (role_keyword : String) :
    List Candidate → List String → List String → Except PyExn (List String × List String)
  | [], matched, calls => .ok (matched.reverse, calls.reverse)
  | c :: rest, matched, calls =>
    match titleOf c.url with
    | .error e => .error e
    | .ok none => discoverLoop titleOf role_keyword rest matched (c.url :: calls)
    | .ok (some title) =>
      if matchesKeyword role_keyword title then
        if 20 ≤ (c.url :: matched).length then
          .ok ((c.url :: matched).reverse, (c.url :: calls).reverse)
        else discoverLoop titleOf role_keyword rest (c.url :: matched) (c.url :: calls)
      else discoverLoop titleOf role_keyword rest matched (c.url :: calls)

/-- The body of the `try` block of `ScraperService.discover_job_links`
(scraper_service.py lines 124-191).  `fetch` is the oracle for
`fetch_page_content(board_url)` (its `Except` layer models the possibility of
an exception reaching this frame); the returned pair is
(matched URLs, URLs title-extraction was called on). -/
def discoverBody (fetch : String → Except PyExn (Option String))
    (titleOf : String → Except PyExn (Option String))
    (board_url role_keyword : String) : Except PyExn (List String × List String) :=
  match fetch board_url with
  | .error e => .error e
  | .ok none => .ok ([], [])
  | .ok (some markdown_content) =>
    if markdown_content = "" then .ok ([], [])
    else
      let candidates := filterCandidates (findLinks markdown_content) []
      if candidates = [] then .ok ([], [])
      else discoverLoop titleOf role_keyword candidates [] []

/-- Model of `ScraperService.discover_job_links(board_url, role_keyword)`: the `try`
body, with any exception caught and converted to `[]`
(scraper_service.py lines 193-195). -/
def discover_job_links (fetch : String → Except PyExn (Option String))
    (titleOf : String → Except PyExn (Option String))
    (board_url role_keyword : String) : List String :=
  match discoverBody fetch titleOf board_url role_keyword with
  | .error _ => []
  | .ok (matched_urls, _) => matched_urls

end LinkDiscovery

section ExtractJobTitle

/-- The double-quote character (`"`). -/
def quoteChar : Char := Char.ofNat 34

/-- The single-quote character. -/
def aposChar : Char := Char.ofNat 39

/-- Python `s.strip(chars)`: remove characters satisfying `p` from both
ends. -/
def stripEnds (p : Char → Bool) (s : String) : String :=
  String.mk (((s.toList.dropWhile p).reverse.dropWhile p).reverse)

/-- If `s` starts (case-insensitively) with `label`, drop it. -/
def dropLabel (label s : String) : Option String :=
  if startsWithL (pyLower label).toList (pyLower s).toList then
    some (String.mk (s.toList.drop label.toList.length))
  else none

/-- The label-removal step `re.sub(r'^(Job title:|Title:|The job title is:)\s*', '', title,
flags=re.IGNORECASE)` (scraper_service.py line 115): remove the first
matching label prefix and the whitespace that follows it. -/
def stripTitleLabel (title : String) : String :=
  match ["Job title:", "Title:", "The job title is:"].findSome?
      (fun l => dropLabel l title) with
  | some rest => String.mk (rest.toList.dropWhile Char.isWhitespace)
  | none => title

/-- Model of `ScraperService._extract_job_title_from_page(url)` (scraper_service.py
lines 89-119).  `content` is the result of `fetch_page_content(url)`,
`api_key` the value of `OPENAI_API_KEY`, and `llm` the outcome of
`llm.invoke(prompt)` followed by reading `.content` (an exception anywhere in
the `try` block is caught and yields `None`). -/
def extract_job_title_from_page (content : Option String) (api_key : Option String)
    (llm : Except PyExn String) : Option String :=
  match content with
  | none => none
  | some c =>
    if c = "" then none
    else
      match api_key with
      | none => none
      | some k =>
        if k = "" then none
        else
          match llm with
          | .error _ => none
          | .ok raw =>
            let title :=
              stripEnds (fun c => c == aposChar)
                (stripEnds (fun c => c == quoteChar)
                  (stripEnds Char.isWhitespace raw))
            some (pySlice (stripTitleLabel title) 200)

end ExtractJobTitle

section ParseJobDescription

/-- A Python value as produced by `json.loads`: strings, numbers, booleans,
`None`, lists, and dicts (dicts as insertion-ordered key/value lists, which
is how CPython dicts behave). -/
inductive JsonValue
  | str (s : String)
  | num (n : Int)
  | bool (b : Bool)
  | null
  | arr (elems : List JsonValue)
  | obj (fields : List (String × JsonValue))

/-- The default-empty record
`{"job_title": "", "company": "", "min": 0, "max": 0}` returned on every
failure path of `parse_job_description_with_ai`. -/
def defaultRecord : List (String × JsonValue) :=
  [("job_title", .str ""), ("company", .str ""), ("min", .num 0), ("max", .num 0)]

/-- The list `required_keys = ["job_title", "company", "min", "max"]`
(analysis_engine.py line 80). -/
def requiredKeys : List String := ["job_title", "company", "min", "max"]

/-- The default value `"" if key in ["job_title", "company"] else 0` (analysis_engine.py
line 84). -/
def defaultFor (key : String) : JsonValue :=
  if key = "job_title" || key = "company" then .str "" else .num 0

/-- One iteration of the `for key in required_keys` loop (analysis_engine.py
lines 81-84): `if key not in parsed: parsed[key] = default` — assigning a
fresh key appends it at the end of the dict. -/
def ensureKey (acc : List (String × JsonValue)) (key : String) :
    List (String × JsonValue) :=
  if (acc.lookup key).isSome then acc else acc ++ [(key, defaultFor key)]

/-- The `for key in required_keys` repair loop over a parsed dict. -/
def fillMissing (fields : List (String × JsonValue)) : List (String × JsonValue) :=
  requiredKeys.foldl ensureKey fields

/-- Outcome of the model invocation plus `json.loads(result.content)` inside
`parse_job_description_with_ai`: either some exception was raised during
model invocation or while reading the response shape (`raises`), or the
response content was not valid JSON (`badJson`, i.e. `json.JSONDecodeError`),
or it parsed to a JSON value. -/
inductive LLMOutcome
  | raises (e : PyExn)
  | badJson (content : String)
  | json (v : JsonValue)

/-- Model of `AnalysisEngine.parse_job_description_with_ai(text_content)`
(analysis_engine.py lines 40-102).  `api_key` is the value of
`OPENAI_API_KEY` (Python treats both `None` and `""` as unset), `llm` the
outcome of the chain invocation on the prompt built from `text_content`.
Every failure path returns `defaultRecord`; a parsed dict is returned after
the missing-key repair loop, all other parsed values are rejected by the
`isinstance(parsed, dict)` check. -/
def parse_job_description_with_ai (api_key : Option String) (llm : LLMOutcome) :
    List (String × JsonValue) :=
  match api_key with
  | none => defaultRecord
  | some k =>
    if k = "" then defaultRecord
    else
      match llm with
      | .raises _ => defaultRecord
      | .badJson _ => defaultRecord
      | .json v =>
        match v with
        | .obj fields => fillMissing fields
        | _ => defaultRecord

end ParseJobDescription

section Fixtures

/-- Python falsiness of an `Option String` value (`not x` is true for both
`None` and the empty string). -/
def isPyFalsy : Option String → Bool
  | none => true
  | some s => s == ""

/-- A model-call outcome whose JSON is a dict with all four required keys, a
wrong-typed `"min"` value, and an extra key. -/
def c1Outcome : LLMOutcome :=
  .json (.obj [("job_title", .str "SWE"), ("company", .str "Acme"),
    ("min", .str "a lot"), ("max", .num 2), ("equity", .num 7)])

/-- Whether an attempt outcome takes a retry branch of the fetch loop:
a 429 response or a transport exception. -/
def isRetryable : AttemptOutcome → Bool
  | .exn _ => true
  | .resp status _ => status == 429

/-- The backoff wait the fetch loop sleeps after a retryable outcome at a
given attempt index: `(2 ** attempt) * 2` after a 429 response,
`(2 ** attempt) * 1` after a transport exception. -/
def waitOf (o : AttemptOutcome) (attempt : Nat) : Nat :=
  match o with
  | .exn _ => 2 ^ attempt * 1
  | .resp _ _ => 2 ^ attempt * 2

/-- A board page with 25 plausible candidate links (distinct URLs, display
texts containing "apply"). -/
def md25 : String :=
  String.intercalate " "
    ((List.range 25).map (fun i =>
      "[Apply " ++ toString i ++ "](http://j" ++ toString i ++ ")"))

/-- The URLs of the first 20 candidate links of `md25`, in encounter
order. -/
def urls20 : List String :=
  (List.range 20).map (fun i => "http://j" ++ toString i)

/-- A fetch oracle serving `md25` for every URL. -/
def discover25fetch : String → Except PyExn (Option String) :=
  fun _ => .ok (some md25)

/-- A title oracle whose every title matches the keyword "engineer". -/
def discover25title : String → Except PyExn (Option String) :=
  fun _ => .ok (some "Senior Backend Engineer")

/-- The board page of the C8 scenario: a greenhouse apply link and a mailto
contact link. -/
def c8page : String :=
  "[Apply: Backend Engineer](https://boards.greenhouse.io/acme/123) and [Contact Us](mailto:hr@acme.com)"

end Fixtures

/-! ## Helper lemmas -/

theorem startsWithL_iff : ∀ needle hay : List Char,
    startsWithL needle hay = true ↔ needle <+: hay
  | [], hay => by simp [startsWithL]
  | c :: cs, [] => by simp [startsWithL]
  | c :: cs, d :: ds => by
    simp [startsWithL, startsWithL_iff cs ds, List.cons_prefix_cons]

theorem containsL_iff : ∀ (hay needle : List Char),
    containsL needle hay = true ↔ needle <:+: hay
  | [], needle => by simp [containsL, List.isEmpty_iff]
  | d :: ds, needle => by
    rw [containsL, List.infix_cons_iff]
    simp [startsWithL_iff, containsL_iff ds needle]

theorem ensureKey_lookup_isSome (acc : List (String × JsonValue)) (key : String) :
    ((ensureKey acc key).lookup key).isSome = true := by
  unfold ensureKey
  by_cases h : (acc.lookup key).isSome
  · simp [h]
  · simp only [h, if_false, List.lookup_append]
    rw [Option.not_isSome_iff_eq_none] at h
    simp [h, List.lookup]

theorem ensureKey_preserves (acc : List (String × JsonValue)) (k key : String)
    (h : ((acc.lookup k)).isSome = true) :
    ((ensureKey acc key).lookup k).isSome = true := by
  unfold ensureKey
  split
  · exact h
  · obtain ⟨v, hv⟩ := Option.isSome_iff_exists.mp h
    simp [List.lookup_append, hv]

theorem defaultRecord_keys :
    (requiredKeys.all fun key => (defaultRecord.lookup key).isSome) = true := by
  decide

theorem fillMissing_keys (fields : List (String × JsonValue)) :
    (requiredKeys.all fun key => ((fillMissing fields).lookup key).isSome) = true := by
  have h4 : fillMissing fields =
      ensureKey (ensureKey (ensureKey (ensureKey fields "job_title") "company") "min")
        "max" := rfl
  simp only [requiredKeys, List.all_cons, List.all_nil, Bool.and_eq_true, h4,
    Bool.and_true]
  refine ⟨?_, ?_, ?_, ?_⟩
  · exact ensureKey_preserves _ _ _ (ensureKey_preserves _ _ _
      (ensureKey_preserves _ _ _ (ensureKey_lookup_isSome _ _)))
  · exact ensureKey_preserves _ _ _ (ensureKey_preserves _ _ _
      (ensureKey_lookup_isSome _ _))
  · exact ensureKey_preserves _ _ _ (ensureKey_lookup_isSome _ _)
  · exact ensureKey_lookup_isSome _ _

/-! ## Claim theorems -/

/-- C5: `parse_job_description_with_ai` returns the default-empty record
immediately when the model credential is absent, and returns the same
default-empty record (never propagating the exception) whenever any
exception is raised during model invocation. -/
theorem parse_jd_default_on_config_or_exception :
    (∀ llm, parse_job_description_with_ai none llm = defaultRecord) ∧
    (∀ k e, parse_job_description_with_ai (some k) (.raises e) = defaultRecord) := by
  constructor
  · intro llm; rfl
  · intro k e
    by_cases h : k = "" <;> simp [parse_job_description_with_ai, h]

/-- C10: `fetch_page_content` is total over every integer `retry_count`: for
any `retry_count ≤ 0` it returns `None` without issuing a single HTTP
request and without sleeping. -/
theorem fetch_nonpositive_retry_count (beh : Nat → AttemptOutcome) (n : Int)
    (h : n ≤ 0) : fetch_page_content beh n = ⟨0, [], none⟩ := by
  unfold fetch_page_content
  rw [Int.toNat_of_nonpos h]
  rfl

/-- Witness for C10 at `retry_count = -2`. -/
theorem fetch_nonpositive_retry_count_witness :
    fetch_page_content (fun _ => .resp 200 "hello") (-2) = ⟨0, [], none⟩ :=
  fetch_nonpositive_retry_count _ _ (by decide)

/-- C9 counterexample: when the proxy responds 200 with an empty body,
`fetch_page_content` does not return `None` — it returns the empty
string. -/
theorem fetch_empty_body_cex :
    (fetch_page_content (fun _ => .resp 200 "") 3).result = some "" ∧
    some "" ≠ (none : Option String) :=
  ⟨rfl, by simp⟩

/-- C9 (amended): when the first attempt responds 200 with an empty body,
`fetch_page_content` returns the empty string — a value that is falsy in
Python exactly like `None`, so truthiness-checking callers cannot
distinguish the two, but it is not `None` itself. -/
theorem fetch_empty_body_falsy (beh : Nat → AttemptOutcome) (n : Int)
    (h1 : 1 ≤ n) (h0 : beh 0 = .resp 200 "") :
    (fetch_page_content beh n).result = some "" ∧
    isPyFalsy (fetch_page_content beh n).result = true ∧
    (fetch_page_content beh n).result ≠ none := by
  have hn : n.toNat = (n.toNat - 1) + 1 := by omega
  unfold fetch_page_content
  rw [hn, List.range_eq_range', List.range'_succ]
  simp only [fetchLoop, h0]
  simp [pySlice, isPyFalsy]

/-- Witness for C9's amended theorem at a concrete behaviour. -/
theorem fetch_empty_body_falsy_witness :
    (fetch_page_content (fun _ => .resp 200 "") 3).result = some "" ∧
    isPyFalsy (fetch_page_content (fun _ => .resp 200 "") 3).result = true ∧
    (fetch_page_content (fun _ => .resp 200 "") 3).result ≠ none :=
  fetch_empty_body_falsy (fun _ => .resp 200 "") 3 (by decide) rfl

/-- C7 counterexample: keyword `"analysis"` does not match a title containing
`"analyst"`, although the title does contain `"analyst"` — the synonym table
is not bidirectional. -/
theorem matchesKeyword_bidirectional_cex :
    matchesKeyword "analysis" "Senior Data Analyst" = false ∧
    pyIn "analyst" (pyLower "Senior Data Analyst") = true ∧
    pyIn "analysis" (pyLower "Senior Data Analyst") = false := by
  decide

/-- C7 (amended): a successfully extracted title is a match if and only if
the lower-cased title contains the lower-cased keyword, or the keyword is
exactly `engineer` and the title contains `engineering`, or the keyword is
exactly `analyst` and the title contains `analysis` — the synonym table is
applied in one direction only. -/
theorem matchesKeyword_characterization (role_keyword title : String) :
    matchesKeyword role_keyword title = true ↔
      ((pyLower role_keyword).toList <:+: (pyLower title).toList ∨
        (pyLower role_keyword = "engineer" ∧
          "engineering".toList <:+: (pyLower title).toList) ∨
        (pyLower role_keyword = "analyst" ∧
          "analysis".toList <:+: (pyLower title).toList)) := by
  unfold matchesKeyword pyIn
  simp [containsL_iff]
  tauto

/-- C1 counterexample: on a model call returning a JSON dict with an extra
key and a wrong-typed `"min"`, `parse_job_description_with_ai` returns that
dict unchanged — the result has five keys, not exactly the four required
ones, and `"min"` holds a string. -/
theorem parse_jd_exact_keys_cex :
    parse_job_description_with_ai (some "sk-test") c1Outcome =
      [("job_title", .str "SWE"), ("company", .str "Acme"),
        ("min", .str "a lot"), ("max", .num 2), ("equity", .num 7)] ∧
    (parse_job_description_with_ai (some "sk-test") c1Outcome).map Prod.fst ≠
      requiredKeys ∧
    (parse_job_description_with_ai (some "sk-test") c1Outcome).lookup "min" =
      some (.str "a lot") := by
  refine ⟨rfl, ?_, rfl⟩
  decide

/-- C1 (amended): for every input and every model-call behaviour,
`parse_job_description_with_ai` returns an object containing at least the
keys `job_title, company, min, max`; missing keys are filled with
type-correct defaults, but extra keys and wrong-typed values of a returned
JSON dict pass through unchanged. -/
theorem parse_jd_keys_present (api_key : Option String) (llm : LLMOutcome) :
    (requiredKeys.all fun key =>
      ((parse_job_description_with_ai api_key llm).lookup key).isSome) = true := by
  cases api_key with
  | none => exact defaultRecord_keys
  | some k =>
    by_cases hk : k = ""
    · subst hk
      simp only [parse_job_description_with_ai, if_pos rfl]
      exact defaultRecord_keys
    · cases llm with
      | raises e =>
        simp only [parse_job_description_with_ai, if_neg hk]
        exact defaultRecord_keys
      | badJson c =>
        simp only [parse_job_description_with_ai, if_neg hk]
        exact defaultRecord_keys
      | json v =>
        cases v with
        | obj fields =>
          simp only [parse_job_description_with_ai, if_neg hk]
          exact fillMissing_keys fields
        | str s =>
          simp only [parse_job_description_with_ai, if_neg hk]
          exact defaultRecord_keys
        | num n =>
          simp only [parse_job_description_with_ai, if_neg hk]
          exact defaultRecord_keys
        | bool b =>
          simp only [parse_job_description_with_ai, if_neg hk]
          exact defaultRecord_keys
        | null =>
          simp only [parse_job_description_with_ai, if_neg hk]
          exact defaultRecord_keys
        | arr elems =>
          simp only [parse_job_description_with_ai, if_neg hk]
          exact defaultRecord_keys

theorem fetchLoop_cons_resp (beh : Nat → AttemptOutcome)
    (rc attempt : Nat) (rest : List Nat) (sleeps : List Nat) (hits : Nat)
    (status : Nat) (body : String) (hb : beh attempt = .resp status body) :
    fetchLoop beh rc (attempt :: rest) sleeps hits =
      if status = 200 then
        ⟨hits + 1, sleeps.reverse, some (pySlice body 20000)⟩
      else if status = 429 then
        if attempt < rc - 1 then
          fetchLoop beh rc rest ((2 ^ attempt * 2) :: sleeps) (hits + 1)
        else ⟨hits + 1, sleeps.reverse, none⟩
      else ⟨hits + 1, sleeps.reverse, none⟩ := by
  rw [fetchLoop, hb]

theorem fetchLoop_cons_exn (beh : Nat → AttemptOutcome)
    (rc attempt : Nat) (rest : List Nat) (sleeps : List Nat) (hits : Nat)
    (e : PyExn) (hb : beh attempt = .exn e) :
    fetchLoop beh rc (attempt :: rest) sleeps hits =
      if attempt < rc - 1 then
        fetchLoop beh rc rest ((2 ^ attempt * 1) :: sleeps) (hits + 1)
      else ⟨hits + 1, sleeps.reverse, none⟩ := by
  rw [fetchLoop, hb]

theorem fetchLoop_retryable (beh : Nat → AttemptOutcome) (n : Nat) :
    ∀ (k a : Nat) (sleeps : List Nat) (hits : Nat), a + (k + 1) = n →
      (∀ i, a ≤ i → i < n → isRetryable (beh i) = true) →
      fetchLoop beh n (List.range' a (k + 1)) sleeps hits =
        ⟨hits + (k + 1),
          sleeps.reverse ++ (List.range' a k).map (fun i => waitOf (beh i) i),
          none⟩
  | 0, a, sleeps, hits => by
    intro han hretry
    have hr := hretry a (le_refl a) (by omega)
    rw [List.range'_succ, List.range'_zero]
    cases hb : beh a with
    | exn e =>
      rw [fetchLoop_cons_exn beh n a [] sleeps hits e hb,
        if_neg (by omega : ¬ a < n - 1)]
      simp
    | resp status body =>
      have hs : status = 429 := by
        rw [hb] at hr; simpa [isRetryable] using hr
      subst hs
      rw [fetchLoop_cons_resp beh n a [] sleeps hits 429 body hb,
        if_neg (by decide : ¬ (429 : Nat) = 200), if_pos rfl,
        if_neg (by omega : ¬ a < n - 1)]
      simp
  | k + 1, a, sleeps, hits => by
    intro han hretry
    have hr := hretry a (le_refl a) (by omega)
    rw [List.range'_succ]
    cases hb : beh a with
    | exn e =>
      rw [fetchLoop_cons_exn beh n a (List.range' (a + 1) (k + 1)) sleeps hits e hb,
        if_pos (by omega : a < n - 1),
        fetchLoop_retryable beh n k (a + 1) ((2 ^ a * 1) :: sleeps) (hits + 1)
          (by omega) (fun i h1 h2 => hretry i (by omega) h2)]
      congr 1
      · omega
      · rw [List.range'_succ]
        simp [waitOf, hb]
    | resp status body =>
      have hs : status = 429 := by
        rw [hb] at hr; simpa [isRetryable] using hr
      subst hs
      rw [fetchLoop_cons_resp beh n a (List.range' (a + 1) (k + 1)) sleeps hits
          429 body hb,
        if_neg (by decide : ¬ (429 : Nat) = 200), if_pos rfl,
        if_pos (by omega : a < n - 1),
        fetchLoop_retryable beh n k (a + 1) ((2 ^ a * 2) :: sleeps) (hits + 1)
          (by omega) (fun i h1 h2 => hretry i (by omega) h2)]
      congr 1
      · omega
      · rw [List.range'_succ]
        simp [waitOf, hb]

/-- C3: when every HTTP attempt returns status 429, `fetch_page_content`
with `retry_count` `n` makes exactly `n` attempts, sleeping strictly
increasing waits of `2^attempt * 2` seconds (2, 4, 8, ...) between them,
and then returns `None`. -/
theorem fetch_429_exhausts_retries (beh : Nat → AttemptOutcome) (n : Nat)
    (h1 : 1 ≤ n) (h429 : ∀ i, i < n → ∃ body, beh i = .resp 429 body) :
    (fetch_page_content beh (n : Int)).requests = n ∧
    (fetch_page_content beh (n : Int)).result = none ∧
    (fetch_page_content beh (n : Int)).sleeps =
      (List.range (n - 1)).map (fun i => 2 ^ i * 2) ∧
    List.Pairwise (· < ·) (fetch_page_content beh (n : Int)).sleeps := by
  have hretry : ∀ i, 0 ≤ i → i < n → isRetryable (beh i) = true := by
    intro i _ hi
    obtain ⟨b, hb⟩ := h429 i hi
    simp [hb, isRetryable]
  have hmap : (List.range (n - 1)).map (fun i => waitOf (beh i) i) =
      (List.range (n - 1)).map (fun i => 2 ^ i * 2) := by
    refine List.map_congr_left fun i hi => ?_
    obtain ⟨b, hb⟩ := h429 i (by have := List.mem_range.mp hi; omega)
    simp [hb, waitOf]
  have hkey : fetch_page_content beh (n : Int) =
      ⟨n, (List.range (n - 1)).map (fun i => 2 ^ i * 2), none⟩ := by
    unfold fetch_page_content
    rw [Int.toNat_ofNat, List.range_eq_range',
      show List.range' 0 n = List.range' 0 ((n - 1) + 1) from by
        rw [Nat.sub_add_cancel h1],
      fetchLoop_retryable beh n (n - 1) 0 [] 0 (by omega) hretry]
    rw [← List.range_eq_range', hmap]
    simp [Nat.sub_add_cancel h1]
  rw [hkey]
  refine ⟨rfl, rfl, rfl, ?_⟩
  exact (List.pairwise_lt_range (n - 1)).map _
    (fun a b hab => by
      have hp : (2 : Nat) ^ a < 2 ^ b := Nat.pow_lt_pow_right (by norm_num) hab
      exact mul_lt_mul_of_pos_right hp (by norm_num))

/-- Witness for C3: three attempts all rate-limited give three requests,
waits 2 s then 4 s, and a `None` result. -/
theorem fetch_429_exhausts_retries_witness :
    (fetch_page_content (fun _ => .resp 429 "slow down") 3).requests = 3 ∧
    (fetch_page_content (fun _ => .resp 429 "slow down") 3).result = none ∧
    (fetch_page_content (fun _ => .resp 429 "slow down") 3).sleeps =
      (List.range 2).map (fun i => 2 ^ i * 2) ∧
    List.Pairwise (· < ·)
      (fetch_page_content (fun _ => .resp 429 "slow down") 3).sleeps :=
  fetch_429_exhausts_retries (fun _ => .resp 429 "slow down") 3 (by decide)
    (fun i _ => ⟨"slow down", rfl⟩)

/-- C6: a first response with a non-200, non-429 status makes
`fetch_page_content` return `None` after exactly one request with no backoff
sleep; only transport exceptions are retried, and those back off with
`2^attempt * 1` second waits. -/
theorem fetch_non_retryable_fails_fast :
    (∀ (beh : Nat → AttemptOutcome) (n : Int) (status : Nat) (body : String),
      1 ≤ n → beh 0 = .resp status body → status ≠ 200 → status ≠ 429 →
      fetch_page_content beh n = ⟨1, [], none⟩) ∧
    (∀ (beh : Nat → AttemptOutcome) (n : Nat), 1 ≤ n →
      (∀ i, i < n → ∃ e, beh i = .exn e) →
      (fetch_page_content beh (n : Int)).requests = n ∧
      (fetch_page_content beh (n : Int)).result = none ∧
      (fetch_page_content beh (n : Int)).sleeps =
        (List.range (n - 1)).map (fun i => 2 ^ i * 1)) := by
  constructor
  · intro beh n status body h1 h0 hs200 hs429
    have hn : n.toNat = (n.toNat - 1) + 1 := by omega
    unfold fetch_page_content
    rw [hn, List.range_eq_range', List.range'_succ]
    simp only [fetchLoop, h0]
    rw [if_neg hs200, if_neg hs429]
    simp
  · intro beh n h1 hexn
    have hretry : ∀ i, 0 ≤ i → i < n → isRetryable (beh i) = true := by
      intro i _ hi
      obtain ⟨e, he⟩ := hexn i hi
      simp [he, isRetryable]
    have hmap : (List.range (n - 1)).map (fun i => waitOf (beh i) i) =
        (List.range (n - 1)).map (fun i => 2 ^ i * 1) := by
      refine List.map_congr_left fun i hi => ?_
      obtain ⟨e, he⟩ := hexn i (by have := List.mem_range.mp hi; omega)
      simp [he, waitOf]
    have hkey : fetch_page_content beh (n : Int) =
        ⟨n, (List.range (n - 1)).map (fun i => 2 ^ i * 1), none⟩ := by
      unfold fetch_page_content
      rw [Int.toNat_ofNat, List.range_eq_range',
        show List.range' 0 n = List.range' 0 ((n - 1) + 1) from by
          rw [Nat.sub_add_cancel h1],
        fetchLoop_retryable beh n (n - 1) 0 [] 0 (by omega) hretry]
      rw [← List.range_eq_range', hmap]
      simp [Nat.sub_add_cancel h1]
    rw [hkey]
    exact ⟨rfl, rfl, rfl⟩

/-- Witness for C6: a single mocked 500 gives one request, no sleep, `None`;
three mocked transport exceptions give three requests with waits 1 s then
2 s. -/
theorem fetch_non_retryable_fails_fast_witness :
    fetch_page_content (fun _ => .resp 500 "server error") 3 = ⟨1, [], none⟩ ∧
    ((fetch_page_content (fun _ => .exn ⟨"conn reset"⟩) 3).requests = 3 ∧
      (fetch_page_content (fun _ => .exn ⟨"conn reset"⟩) 3).result = none ∧
      (fetch_page_content (fun _ => .exn ⟨"conn reset"⟩) 3).sleeps =
        (List.range 2).map (fun i => 2 ^ i * 1)) :=
  ⟨fetch_non_retryable_fails_fast.1 (fun _ => .resp 500 "server error") 3 500
      "server error" (by decide) rfl (by decide) (by decide),
    fetch_non_retryable_fails_fast.2 (fun _ => .exn ⟨"conn reset"⟩) 3 (by decide)
      (fun i _ => ⟨⟨"conn reset"⟩, rfl⟩)⟩

theorem discoverLoop_cons_error (titleOf : String → Except PyExn (Option String))
    (role_keyword : String) (c : Candidate) (rest : List Candidate)
    (matched calls : List String) (e : PyExn) (hb : titleOf c.url = .error e) :
    discoverLoop titleOf role_keyword (c :: rest) matched calls = .error e := by
  rw [discoverLoop, hb]

theorem discoverLoop_cons_none (titleOf : String → Except PyExn (Option String))
    (role_keyword : String) (c : Candidate) (rest : List Candidate)
    (matched calls : List String) (hb : titleOf c.url = .ok none) :
    discoverLoop titleOf role_keyword (c :: rest) matched calls =
      discoverLoop titleOf role_keyword rest matched (c.url :: calls) := by
  rw [discoverLoop, hb]

theorem discoverLoop_cons_some (titleOf : String → Except PyExn (Option String))
    (role_keyword : String) (c : Candidate) (rest : List Candidate)
    (matched calls : List String) (title : String)
    (hb : titleOf c.url = .ok (some title)) :
    discoverLoop titleOf role_keyword (c :: rest) matched calls =
      if matchesKeyword role_keyword title then
        if 20 ≤ (c.url :: matched).length then
          .ok ((c.url :: matched).reverse, (c.url :: calls).reverse)
        else discoverLoop titleOf role_keyword rest (c.url :: matched) (c.url :: calls)
      else discoverLoop titleOf role_keyword rest matched (c.url :: calls) := by
  rw [discoverLoop, hb]

theorem discoverBody_fetch_error (fetch titleOf : String → Except PyExn (Option String))
    (board_url role_keyword : String) (e : PyExn) (hb : fetch board_url = .error e) :
    discoverBody fetch titleOf board_url role_keyword = .error e := by
  unfold discoverBody
  rw [hb]

theorem discoverBody_fetch_none (fetch titleOf : String → Except PyExn (Option String))
    (board_url role_keyword : String) (hb : fetch board_url = .ok none) :
    discoverBody fetch titleOf board_url role_keyword = .ok ([], []) := by
  unfold discoverBody
  rw [hb]

theorem discoverBody_fetch_some (fetch titleOf : String → Except PyExn (Option String))
    (board_url role_keyword md : String) (hb : fetch board_url = .ok (some md)) :
    discoverBody fetch titleOf board_url role_keyword =
      if md = "" then .ok ([], [])
      else if filterCandidates (findLinks md) [] = [] then .ok ([], [])
      else discoverLoop titleOf role_keyword (filterCandidates (findLinks md) []) [] [] := by
  unfold discoverBody
  rw [hb]

/-- C2: `discover_job_links` never raises: an exception anywhere inside the
operation yields the empty list (caught, not propagated), while a fetch or
title-extraction failure for an individual candidate is treated as a
non-match for that candidate only, and discovery continues with the
remaining candidates. -/
theorem discover_never_raises :
    (∀ (fetch titleOf : String → Except PyExn (Option String))
      (board_url role_keyword : String) (e : PyExn),
      discoverBody fetch titleOf board_url role_keyword = .error e →
      discover_job_links fetch titleOf board_url role_keyword = []) ∧
    (∀ (titleOf : String → Except PyExn (Option String))
      (role_keyword : String) (c : Candidate) (rest : List Candidate)
      (matched calls : List String), titleOf c.url = .ok none →
      discoverLoop titleOf role_keyword (c :: rest) matched calls =
        discoverLoop titleOf role_keyword rest matched (c.url :: calls)) ∧
    (∀ (api_key : Option String) (llm : Except PyExn String),
      extract_job_title_from_page none api_key llm = none) ∧
    (∀ (content api_key : Option String) (e : PyExn),
      extract_job_title_from_page content api_key (.error e) = none) := by
  refine ⟨?_, ?_, ?_, ?_⟩
  · intro fetch titleOf board_url role_keyword e h
    unfold discover_job_links
    rw [h]
  · intro titleOf role_keyword c rest matched calls h
    exact discoverLoop_cons_none titleOf role_keyword c rest matched calls h
  · intro api_key llm
    rfl
  · intro content api_key e
    cases content with
    | none => rfl
    | some c =>
      by_cases hc : c = ""
      · simp [extract_job_title_from_page, hc]
      · cases api_key with
        | none => simp [extract_job_title_from_page, hc]
        | some k =>
          by_cases hk : k = "" <;> simp [extract_job_title_from_page, hc, hk]

/-- Witness for C2 at concrete oracle behaviours. -/
theorem discover_never_raises_witness :
    discover_job_links (fun _ => .error ⟨"boom"⟩) (fun _ => .ok none)
      "https://acme.example/careers" "engineer" = [] ∧
    discoverLoop (fun _ => .ok none) "engineer" [⟨"Apply here", "http://x"⟩] [] [] =
      discoverLoop (fun _ => .ok none) "engineer" [] [] ["http://x"] ∧
    extract_job_title_from_page none (some "sk") (.ok "a title") = none ∧
    extract_job_title_from_page (some "page text") (some "sk") (.error ⟨"boom"⟩) = none :=
  ⟨discover_never_raises.1 _ _ _ _ ⟨"boom"⟩ rfl,
    discover_never_raises.2.1 _ _ ⟨"Apply here", "http://x"⟩ [] [] [] rfl,
    discover_never_raises.2.2.1 _ _,
    discover_never_raises.2.2.2 _ _ _⟩

theorem discoverLoop_ok_shape (titleOf : String → Except PyExn (Option String))
    (role_keyword : String) :
    ∀ (cands : List Candidate) (matched calls : List String)
      (p : List String × List String),
      discoverLoop titleOf role_keyword cands matched calls = .ok p →
      ∃ extra, p.1 = matched.reverse ++ extra ∧
        extra.Sublist (cands.map Candidate.url) ∧
        (matched.length < 20 → matched.length + extra.length ≤ 20)
  | [], matched, calls, p => by
    intro h
    rw [discoverLoop] at h
    injection h with h
    subst h
    exact ⟨[], by simp, List.nil_sublist _, fun hlt => by simpa using le_of_lt hlt⟩
  | c :: rest, matched, calls, p => by
    intro h
    cases ht : titleOf c.url with
    | error e =>
      rw [discoverLoop_cons_error titleOf role_keyword c rest matched calls e ht] at h
      exact Except.noConfusion h
    | ok oTitle =>
      cases oTitle with
      | none =>
        rw [discoverLoop_cons_none titleOf role_keyword c rest matched calls ht] at h
        obtain ⟨extra, h1, h2, h3⟩ :=
          discoverLoop_ok_shape titleOf role_keyword rest matched (c.url :: calls) p h
        exact ⟨extra, h1, by simpa using h2.cons c.url, h3⟩
      | some title =>
        rw [discoverLoop_cons_some titleOf role_keyword c rest matched calls title ht] at h
        by_cases hm : matchesKeyword role_keyword title
        · rw [if_pos hm] at h
          by_cases h20 : 20 ≤ (c.url :: matched).length
          · rw [if_pos h20] at h
            injection h with h
            subst h
            refine ⟨[c.url], by simp, ?_, ?_⟩
            · exact List.map_cons Candidate.url c rest ▸
                (List.nil_sublist (rest.map Candidate.url)).cons₂ c.url
            · intro hlt
              simp
              omega
          · rw [if_neg h20] at h
            obtain ⟨extra, h1, h2, h3⟩ := discoverLoop_ok_shape titleOf role_keyword
              rest (c.url :: matched) (c.url :: calls) p h
            refine ⟨c.url :: extra, ?_, ?_, ?_⟩
            · rw [h1]; simp
            · simpa using h2.cons₂ c.url
            · intro hlt
              have h3' := h3 (not_le.mp h20)
              simp only [List.length_cons] at h3' ⊢
              omega
        · rw [if_neg hm] at h
          obtain ⟨extra, h1, h2, h3⟩ :=
            discoverLoop_ok_shape titleOf role_keyword rest matched (c.url :: calls) p h
          exact ⟨extra, h1, by simpa using h2.cons c.url, h3⟩

theorem discoverBody_ok (fetch titleOf : String → Except PyExn (Option String))
    (board_url role_keyword : String) (p : List String × List String)
    (h : discoverBody fetch titleOf board_url role_keyword = .ok p) :
    p.1.length ≤ 20 ∧ ∀ md, fetch board_url = .ok (some md) →
      p.1.Sublist ((filterCandidates (findLinks md) []).map Candidate.url) := by
  cases hf : fetch board_url with
  | error e =>
    rw [discoverBody_fetch_error fetch titleOf board_url role_keyword e hf] at h
    exact Except.noConfusion h
  | ok o =>
    cases o with
    | none =>
      rw [discoverBody_fetch_none fetch titleOf board_url role_keyword hf] at h
      injection h with h
      subst h
      exact ⟨by simp, fun md _ => List.nil_sublist _⟩
    | some md' =>
      rw [discoverBody_fetch_some fetch titleOf board_url role_keyword md' hf] at h
      by_cases hmd : md' = ""
      · rw [if_pos hmd] at h
        injection h with h
        subst h
        exact ⟨by simp, fun md _ => List.nil_sublist _⟩
      · rw [if_neg hmd] at h
        by_cases hc : filterCandidates (findLinks md') [] = []
        · rw [if_pos hc] at h
          injection h with h
          subst h
          exact ⟨by simp, fun md _ => List.nil_sublist _⟩
        · rw [if_neg hc] at h
          obtain ⟨extra, h1, h2, h3⟩ :=
            discoverLoop_ok_shape titleOf role_keyword _ [] [] p h
          simp only [List.nil_append, List.reverse_nil] at h1
          subst h1
          constructor
          · have := h3 (by simp)
            simpa using this
          · intro md hmd2
            injection hmd2 with hmd2
            injection hmd2 with hmd2
            subst hmd2
            exact h2

set_option maxRecDepth 100000

/-- C4: `discover_job_links` returns at most 20 URLs, as a sublist (hence in
encounter order) of the filtered candidate URLs of the fetched page; in the
concrete scenario of 25 plausible candidates whose first 20 titles match
the keyword, it returns exactly the first 20 URLs and issues
title-extraction calls only for those first 20 candidates. -/
theorem discover_cap_and_order :
    (∀ (fetch titleOf : String → Except PyExn (Option String))
      (board_url role_keyword : String),
      (discover_job_links fetch titleOf board_url role_keyword).length ≤ 20) ∧
    (∀ (fetch titleOf : String → Except PyExn (Option String))
      (board_url role_keyword md : String), fetch board_url = .ok (some md) →
      (discover_job_links fetch titleOf board_url role_keyword).Sublist
        ((filterCandidates (findLinks md) []).map Candidate.url)) ∧
    (filterCandidates (findLinks md25) []).length = 25 ∧
    discoverBody discover25fetch discover25title "https://board.example.com"
      "engineer" = .ok (urls20, urls20) ∧
    discover_job_links discover25fetch discover25title "https://board.example.com"
      "engineer" = urls20 := by
  refine ⟨?_, ?_, by decide, by rfl, by decide⟩
  · intro fetch titleOf board_url role_keyword
    unfold discover_job_links
    cases hb : discoverBody fetch titleOf board_url role_keyword with
    | error e => simp
    | ok p =>
      obtain ⟨m, cl⟩ := p
      exact (discoverBody_ok fetch titleOf board_url role_keyword (m, cl) hb).1
  · intro fetch titleOf board_url role_keyword md hmd
    unfold discover_job_links
    cases hb : discoverBody fetch titleOf board_url role_keyword with
    | error e => exact List.nil_sublist _
    | ok p =>
      obtain ⟨m, cl⟩ := p
      exact (discoverBody_ok fetch titleOf board_url role_keyword (m, cl) hb).2 md hmd

/-- Witness for C4's hypothesis-bearing part at the concrete 25-candidate
scenario. -/
theorem discover_cap_and_order_witness :
    (discover_job_links discover25fetch discover25title
      "https://board.example.com" "engineer").Sublist
      ((filterCandidates (findLinks md25) []).map Candidate.url) :=
  discover_cap_and_order.2.1 discover25fetch discover25title
    "https://board.example.com" "engineer" md25 rfl

theorem filterCandidates_all_ok :
    ∀ (links : List (String × String)) (seen : List String),
    (filterCandidates links seen).all (fun c =>
      decide (4 ≤ pyLen c.text) && !(pyIn "mailto" c.url) &&
        !(pyIn "linkedin" c.url)) = true
  | [], seen => rfl
  | (text, href) :: rest, seen => by
    rw [filterCandidates]
    cases hbad : badLink text href with
    | true =>
      rw [if_pos rfl]
      exact filterCandidates_all_ok rest seen
    | false =>
      rw [if_neg Bool.false_ne_true]
      cases hpl : looksLikeJobLink text href with
      | false =>
        rw [if_neg Bool.false_ne_true]
        exact filterCandidates_all_ok rest seen
      | true =>
        rw [if_pos rfl]
        cases hseen : seen.contains href with
        | true =>
          rw [if_pos rfl]
          exact filterCandidates_all_ok rest seen
        | false =>
          rw [if_neg Bool.false_ne_true]
          rw [List.all_cons, Bool.and_eq_true]
          refine ⟨?_, filterCandidates_all_ok rest (href :: seen)⟩
          simp only [badLink, Bool.or_eq_false_iff, decide_eq_false_iff_not,
            not_lt] at hbad
          obtain ⟨⟨h1, h2⟩, h3⟩ := hbad
          simp [h1, h2, h3]

theorem filterCandidates_nodup :
    ∀ (links : List (String × String)) (seen : List String),
    ((filterCandidates links seen).map Candidate.url).Nodup ∧
    ∀ u ∈ seen, u ∉ (filterCandidates links seen).map Candidate.url
  | [], seen => by simp [filterCandidates]
  | (text, href) :: rest, seen => by
    rw [filterCandidates]
    cases hbad : badLink text href with
    | true =>
      rw [if_pos rfl]
      exact filterCandidates_nodup rest seen
    | false =>
      rw [if_neg Bool.false_ne_true]
      cases hpl : looksLikeJobLink text href with
      | false =>
        rw [if_neg Bool.false_ne_true]
        exact filterCandidates_nodup rest seen
      | true =>
        rw [if_pos rfl]
        cases hseen : seen.contains href with
        | true =>
          rw [if_pos rfl]
          exact filterCandidates_nodup rest seen
        | false =>
          rw [if_neg Bool.false_ne_true]
          have hmem : href ∉ seen := by
            intro hm
            have hc : seen.contains href = true := List.elem_iff.mpr hm
            rw [hc] at hseen
            exact Bool.noConfusion hseen
          obtain ⟨hnd, hinv⟩ := filterCandidates_nodup rest (href :: seen)
          constructor
          · rw [List.map_cons]
            exact List.nodup_cons.mpr ⟨hinv href (List.mem_cons_self _ _), hnd⟩
          · intro u hu
            rw [List.map_cons]
            intro hmem2
            rcases List.mem_cons.mp hmem2 with heq | hin
            · exact hmem ((show u = href from heq) ▸ hu)
            · exact hinv u (List.mem_cons_of_mem _ hu) hin

/-- C8: `discover_job_links` discards every parsed link whose display text
is under 4 characters or whose URL contains "mailto" or "linkedin", and
deduplicates candidate URLs keeping the first occurrence; on a page
containing an apply link to a greenhouse URL and a mailto contact link, a
call with keyword "engineer" (with a matching extracted title) includes the
greenhouse URL and never the mailto URL. -/
theorem discover_candidate_filter :
    (∀ (links : List (String × String)) (seen : List String),
      (filterCandidates links seen).all (fun c =>
        decide (4 ≤ pyLen c.text) && !(pyIn "mailto" c.url) &&
          !(pyIn "linkedin" c.url)) = true) ∧
    (∀ (links : List (String × String)) (seen : List String),
      ((filterCandidates links seen).map Candidate.url).Nodup) ∧
    filterCandidates
      [("Apply one", "http://a.example/jobs"),
        ("Apply two", "http://a.example/jobs")] [] =
      [⟨"Apply one", "http://a.example/jobs"⟩] ∧
    discover_job_links (fun _ => .ok (some c8page))
      (fun _ => .ok (some "Backend Engineer"))
      "https://acme.example/careers" "engineer" =
      ["https://boards.greenhouse.io/acme/123"] ∧
    "mailto:hr@acme.com" ∉ discover_job_links (fun _ => .ok (some c8page))
      (fun _ => .ok (some "Backend Engineer"))
      "https://acme.example/careers" "engineer" :=
  ⟨filterCandidates_all_ok,
    fun links seen => (filterCandidates_nodup links seen).1,
    by decide, by decide, by decide⟩

end InterviewDemo
